import Mathlib

/-!
Shallow embedding of the core routines of `src/KexDll/kexrtl.c`:

* `KexRtlWriteProcessMemory`   (the spec's ProtectedRemoteWriter)
* `KexRtlRemoteProcessBitness` (the spec's RemoteProcessWordWidth)
* `KexRtlMiniGetProcedureAddress` (the spec's ManualExportResolver)
* `KexRtlGetNativeSystemDllBase`  (the spec's NativeModuleLocator)

The NT system-call surface (`NtProtectVirtualMemory`, `NtWriteVirtualMemory`,
`NtQueryVirtualMemory`, `NtQueryInformationProcess`, `LdrGetDllHandleByName`)
is modelled explicitly: virtual memory of the target process is a state
(per-page commitment and protection, per-byte contents), and the query calls
are environment functions supplied per theorem.
-/

/-! ## NTSTATUS values and NT constants -/

def STATUS_SUCCESS : Nat := 0
def STATUS_INVALID_PARAMETER : Nat := 0xC000000D
def STATUS_ACCESS_VIOLATION : Nat := 0xC0000005
def STATUS_ACCESS_DENIED : Nat := 0xC0000022
def STATUS_NOT_COMMITTED : Nat := 0xC000002D
def STATUS_INVALID_PAGE_PROTECTION : Nat := 0xC0000045
def STATUS_INVALID_IMAGE_FORMAT : Nat := 0xC000007B
def STATUS_ENTRYPOINT_NOT_FOUND : Nat := 0xC0000139

/-- `NT_SUCCESS(Status)`: the signed 32-bit value is nonnegative. -/
def NT_SUCCESS (st : Nat) : Prop := st < 0x80000000

instance (st : Nat) : Decidable (NT_SUCCESS st) := by
  unfold NT_SUCCESS; infer_instance

def PAGE_SIZE : Nat := 4096
def PAGE_NOACCESS : Nat := 0x01
def PAGE_READONLY : Nat := 0x02
def PAGE_READWRITE : Nat := 0x04
def PAGE_WRITECOPY : Nat := 0x08
def PAGE_EXECUTE : Nat := 0x10
def PAGE_EXECUTE_READ : Nat := 0x20
def PAGE_EXECUTE_READWRITE : Nat := 0x40
def PAGE_EXECUTE_WRITECOPY : Nat := 0x80
def MEM_IMAGE : Nat := 0x1000000

/-- The set of protection constants `NtProtectVirtualMemory` accepts. -/
def validProt (p : Nat) : Bool :=
  p == PAGE_NOACCESS || p == PAGE_READONLY || p == PAGE_READWRITE ||
  p == PAGE_WRITECOPY || p == PAGE_EXECUTE || p == PAGE_EXECUTE_READ ||
  p == PAGE_EXECUTE_READWRITE || p == PAGE_EXECUTE_WRITECOPY

/-- Protections allowing `NtWriteVirtualMemory` to write. -/
def protWritable (p : Nat) : Bool :=
  p == PAGE_READWRITE || p == PAGE_WRITECOPY ||
  p == PAGE_EXECUTE_READWRITE || p == PAGE_EXECUTE_WRITECOPY

/-! ## Virtual-memory model of the target process -/

/-- Virtual memory of the target process plus the write capability of the
handle the caller supplies (`writeAccess` is false when the handle lacks
write access, making `NtWriteVirtualMemory` fail). -/
structure VmState where
  committed : Nat → Bool
  pageProt : Nat → Nat
  mem : Nat → Nat
  writeAccess : Bool

/-- Index of the page containing byte address `a`. -/
def pageLo (a : Nat) : Nat := a / PAGE_SIZE

/-- One past the index of the last page touched by the byte range
`[addr, addr + cb)` (page rounding performed by the kernel). -/
def pageHiEx (addr cb : Nat) : Nat := (addr + cb + PAGE_SIZE - 1) / PAGE_SIZE

/-- Number of pages covered by the byte range `[addr, addr + cb)`. -/
def pageCnt (addr cb : Nat) : Nat := pageHiEx addr cb - pageLo addr

/-- The list of page indices covered by the byte range `[addr, addr + cb)`. -/
def rangePages (addr cb : Nat) : List Nat :=
  (List.range (pageCnt addr cb)).map (fun k => pageLo addr + k)

/-- Result of `NtProtectVirtualMemory`: the status, the state after the call,
and the values the kernel stores back through `*BaseAddress`, `*RegionSize`
and `*OldProtect` (the base address and size are rounded to page boundaries,
the old protection is that of the first page of the range). -/
structure ProtectResult where
  status : Nat
  state : VmState
  baseAddress : Nat
  regionSize : Nat
  oldProtect : Nat

/-- The state after a successful protection change: every page covered by
`[addr, addr + size)` gets protection `newProt`. -/
def protState (s : VmState) (addr size newProt : Nat) : VmState :=
  { s with pageProt := fun p =>
      if pageLo addr ≤ p ∧ p < pageHiEx addr size then newProt else s.pageProt p }

/-- The state after a successful write of `src` at `dest`. -/
def writtenState (s : VmState) (dest : Nat) (src : List Nat) : VmState :=
  { s with mem := fun a =>
      if dest ≤ a ∧ a < dest + src.length then src.getD (a - dest) 0 else s.mem a }

/-- Model of `NtProtectVirtualMemory`.  Fails on an empty range, an invalid
protection constant, or a range containing a non-committed page; otherwise
sets the protection of every covered page, reports the page-rounded base and
size back through the in/out pointers, and reports the previous protection of
the first page through `*OldProtect`. -/
def NtProtectVirtualMemory (s : VmState) (addr size newProt : Nat) : ProtectResult :=
  if size = 0 then
    ⟨STATUS_INVALID_PARAMETER, s, addr, size, 0⟩
  else if validProt newProt = false then
    ⟨STATUS_INVALID_PAGE_PROTECTION, s, addr, size, 0⟩
  else if (rangePages addr size).all s.committed = false then
    ⟨STATUS_NOT_COMMITTED, s, addr, size, 0⟩
  else
    ⟨STATUS_SUCCESS, protState s addr size newProt,
     pageLo addr * PAGE_SIZE,
     pageCnt addr size * PAGE_SIZE,
     s.pageProt (pageLo addr)⟩

/-- Model of `NtWriteVirtualMemory`.  Fails when the handle lacks write
access or some destination page is non-committed or non-writable; otherwise
stores the source bytes at the destination. -/
def NtWriteVirtualMemory (s : VmState) (dest : Nat) (src : List Nat) : Nat × VmState :=
  if s.writeAccess = false then
    (STATUS_ACCESS_DENIED, s)
  else if src.length = 0 then
    (STATUS_SUCCESS, s)
  else if (rangePages dest src.length).all
      (fun p => s.committed p && protWritable (s.pageProt p)) = false then
    (STATUS_ACCESS_VIOLATION, s)
  else
    (STATUS_SUCCESS, writtenState s dest src)

/-- `KexRtlWriteProcessMemory` (kexrtl.c lines 603-643).  Temporarily makes
the destination range `PAGE_READWRITE` (capturing the previous protection),
attempts the write, then restores the captured protection over the range the
first protect call reported back (its return value is discarded), and returns
the write's status. -/
def KexRtlWriteProcessMemory (s : VmState) (Destination : Nat) (Source : List Nat) :
    Nat × VmState :=
  let r1 := NtProtectVirtualMemory s Destination Source.length PAGE_READWRITE
  if NT_SUCCESS r1.status then
    let w := NtWriteVirtualMemory r1.state Destination Source
    let r2 := NtProtectVirtualMemory w.2 r1.baseAddress r1.regionSize r1.oldProtect
    (w.1, r2.state)
  else
    (r1.status, r1.state)

/-! ## RemoteProcessWordWidth -/

/-- Result of the `NtQueryInformationProcess(ProcessWow64Information)` query
on the target process: its status and, on success, the 32-bit PEB address
(non-zero exactly for a 32-bit process on a 64-bit system). -/
structure Wow64Query where
  status : Nat
  peb32 : Nat

/-- `KexRtlRemoteProcessBitness` (kexrtl.c lines 573-595).  `osBitness` is
the value of `KexRtlOperatingSystemBitness()`; `q` is what the
`ProcessWow64Information` query on the handle would return. -/
def KexRtlRemoteProcessBitness (osBitness : Nat) (q : Wow64Query) : Nat :=
  if osBitness = 32 then 32
  else if NT_SUCCESS q.status ∧ q.peb32 ≠ 0 then 32
  else 64

/-! ## ManualExportResolver -/

/-- The export metadata of a mapped image, as `KexRtlMiniGetProcedureAddress`
reads it: the export name table (`AddressOfNames`, with the pointed-to ASCII
strings inlined), the name-ordinal table (`AddressOfNameOrdinals`) and the
export address table (`AddressOfFunctions`, holding RVAs). -/
structure ExportDirectoryView where
  names : List (List Char)
  nameOrdinals : List Nat
  functions : List Nat

/-- The linear scan of the export name table (the `for` loop of
kexrtl.c lines 559-568): index of the first exact match, if any. -/
def scanNames : List (List Char) → List Char → Option Nat
  | [], _ => none
  | n :: rest, pn =>
      if n = pn then some 0
      else Option.map (fun i => i + 1) (scanNames rest pn)

/-- `KexRtlMiniGetProcedureAddress` (kexrtl.c lines 527-571).
`exportDirOf` models `RtlImageDirectoryEntryToData`: the export directory a
given image base resolves to, or `none` when the image has none.  `dllBase`
is the image base address (`0` = NULL), `procedureName` is the name pointer
(`none` = NULL) and `procAddrIsNull` says whether the output pointer is NULL.
The result is the returned status plus what the call stored through
`*ProcedureAddress` (`none` = never written). -/
def KexRtlMiniGetProcedureAddress (exportDirOf : Nat → Option ExportDirectoryView)
    (dllBase : Nat) (procedureName : Option (List Char)) (procAddrIsNull : Bool) :
    Nat × Option Nat :=
  if dllBase = 0 ∨ procedureName = none ∨ procAddrIsNull = true then
    (STATUS_INVALID_PARAMETER, none)
  else
    match exportDirOf dllBase, procedureName with
    | none, _ => (STATUS_INVALID_IMAGE_FORMAT, some 0)
    | some _, none => (STATUS_INVALID_PARAMETER, none)
    | some ed, some pn =>
        match scanNames ed.names pn with
        | some i =>
            (STATUS_SUCCESS,
             some (dllBase + ed.functions.getD (ed.nameOrdinals.getD i 0) 0))
        | none => (STATUS_ENTRYPOINT_NOT_FOUND, some 0)

/-! ## NativeModuleLocator -/

/-- Case-insensitive character comparison used by `RtlEqualUnicodeString`
with `CaseInSensitive = TRUE`. -/
def charEqNoCase (a b : Char) : Bool := a.toUpper == b.toUpper

/-- Element-wise comparison of two equal-length character lists. -/
def listEqBy : (Char → Char → Bool) → List Char → List Char → Bool
  | _, [], [] => true
  | f, a :: as, b :: bs => f a b && listEqBy f as bs
  | _, _, _ => false

/-- `KexRtlUnicodeStringEndsWith` (kexrtl.c lines 290-317): compares the tail
of `s` against `e`; false when `e` is longer than `s`. -/
def KexRtlUnicodeStringEndsWith (s e : List Char) (caseInsensitive : Bool) : Bool :=
  if s.length < e.length then false
  else
    listEqBy (fun a b => if caseInsensitive then charEqNoCase a b else a == b)
      (List.drop (s.length - e.length) s) e

/-- The path fragment `L"Windows\system32\ntdll.dll"` the locator matches. -/
def ntdllPathFragment : List Char := "Windows\\system32\\ntdll.dll".data

/-- Environment of `KexRtlGetNativeSystemDllBase`: the two bitness values,
the result of `LdrGetDllHandleByName(L"ntdll.dll")` (`none` = failure), and
the two `NtQueryVirtualMemory` information classes — the mapped-file name at
an address (`none` = failure/unmapped) and the basic information at an
address (allocation base and region type; `none` = failure). -/
structure LocEnv where
  currentBitness : Nat
  osBitness : Nat
  loaderNtdll : Option Nat
  queryMappedName : Nat → Option (List Char)
  queryBasic : Nat → Option (Nat × Nat)

/-- One iteration of the scan loop body (kexrtl.c lines 466-513):
either the native NTDLL base was found (`Sum.inl`), or the probe address for
the next iteration (`Sum.inr`).  Note that once the basic-information query
succeeds the loop variable is overwritten with the allocation base, so the
`continue` paths after that point step down from the allocation base. -/
def scanStep (env : LocEnv) (addr : Nat) : Sum Nat Nat :=
  match env.queryMappedName addr with
  | none => Sum.inr (addr - 0x10000)
  | some nm =>
      match env.queryBasic addr with
      | none => Sum.inr (addr - 0x10000)
      | some (allocBase, rtype) =>
          if rtype ≠ MEM_IMAGE then Sum.inr (allocBase - 0x10000)
          else if KexRtlUnicodeStringEndsWith nm ntdllPathFragment true then
            Sum.inl allocBase
          else Sum.inr (allocBase - 0x10000)

/-- Number of `NtQueryVirtualMemory` calls one iteration performs: one when
the mapped-file-name query fails, two otherwise. -/
def iterQueries (env : LocEnv) (addr : Nat) : Nat :=
  match env.queryMappedName addr with
  | none => 1
  | some _ => 2

/-- The scan loop (`for (NtdllBaseAddress = 0x7FFD0000; NtdllBaseAddress >
0x70000000; NtdllBaseAddress -= 0x10000)`), written with explicit fuel so it
is total even for environments that violate the kernel's allocation-base
contract.  Returns `none` when the fuel ran out, `some none` when the range
was exhausted without a match, `some (some b)` when base `b` was found; the
second component counts the `NtQueryVirtualMemory` calls performed. -/
def nativeDllScan (env : LocEnv) : Nat → Nat → Option (Option Nat) × Nat
  | 0, addr => if 0x70000000 < addr then (none, 0) else (some none, 0)
  | fuel + 1, addr =>
      if 0x70000000 < addr then
        match scanStep env addr with
        | Sum.inl base => (some (some base), iterQueries env addr)
        | Sum.inr next =>
            let rest := nativeDllScan env fuel next
            (rest.1, iterQueries env addr + rest.2)
      else (some none, 0)

/-- Number of probe addresses in the fixed range `0x7FFD0000` down to (not
including) `0x70000000` in steps of `0x10000`; exactly enough fuel for the
scan loop under the kernel's allocation-base contract. -/
def SCAN_FUEL : Nat := 4093

/-- The initial probe address of the scan loop. -/
def SCAN_START : Nat := 0x7FFD0000

/-- `KexRtlGetNativeSystemDllBase` (kexrtl.c lines 429-520).  Fast path via
the loader when the process and OS bitness agree; otherwise (or when the
loader call fails) the descending address-space scan.  A fuel-exhausted scan
(impossible under the kernel's allocation-base contract) folds to "not
found". -/
def KexRtlGetNativeSystemDllBase (env : LocEnv) : Option Nat :=
  if env.currentBitness = env.osBitness then
    match env.loaderNtdll with
    | some base => some base
    | none => Option.join (nativeDllScan env SCAN_FUEL SCAN_START).1
  else Option.join (nativeDllScan env SCAN_FUEL SCAN_START).1

/-! ## Helper lemmas: page ranges -/

lemma mem_rangePages {a c p : Nat} :
    p ∈ rangePages a c ↔ pageLo a ≤ p ∧ p < pageHiEx a c := by
  simp only [rangePages, pageCnt, List.mem_map, List.mem_range]
  constructor
  · rintro ⟨k, hk, rfl⟩; omega
  · intro h; exact ⟨p - pageLo a, by omega, by omega⟩

lemma all_rangePages {f : Nat → Bool} {a c : Nat} :
    (rangePages a c).all f = true ↔
      ∀ p, pageLo a ≤ p → p < pageHiEx a c → f p = true := by
  simp only [List.all_eq_true]
  constructor
  · intro h p h1 h2; exact h p (mem_rangePages.mpr ⟨h1, h2⟩)
  · intro h p hp; exact h p (mem_rangePages.mp hp).1 (mem_rangePages.mp hp).2

lemma pageLo_le_pageHiEx (a c : Nat) : pageLo a ≤ pageHiEx a c := by
  unfold pageLo pageHiEx PAGE_SIZE
  omega

lemma pageLo_lt_pageHiEx {a c : Nat} (h : c ≠ 0) : pageLo a < pageHiEx a c := by
  unfold pageLo pageHiEx PAGE_SIZE
  omega

lemma pageLo_mul (q : Nat) : pageLo (q * PAGE_SIZE) = q := by
  unfold pageLo PAGE_SIZE
  omega

lemma pageHiEx_mul (q n : Nat) : pageHiEx (q * PAGE_SIZE) (n * PAGE_SIZE) = q + n := by
  unfold pageHiEx PAGE_SIZE
  omega

lemma pageCnt_floor (a c : Nat) :
    pageCnt (pageLo a * PAGE_SIZE) (pageCnt a c * PAGE_SIZE) = pageCnt a c := by
  unfold pageCnt
  rw [pageHiEx_mul, pageLo_mul]
  omega

lemma rangePages_floor (a c : Nat) :
    rangePages (pageLo a * PAGE_SIZE) (pageCnt a c * PAGE_SIZE) = rangePages a c := by
  unfold rangePages
  rw [pageCnt_floor, pageLo_mul]

/-! ## Helper lemmas: the modelled system calls -/

lemma protect_succ_iff (s : VmState) (addr size p : Nat) :
    NT_SUCCESS (NtProtectVirtualMemory s addr size p).status ↔
      size ≠ 0 ∧ validProt p = true ∧ (rangePages addr size).all s.committed = true := by
  unfold NtProtectVirtualMemory
  by_cases h1 : size = 0
  · simp [h1, NT_SUCCESS, STATUS_INVALID_PARAMETER]
  by_cases h2 : validProt p = false
  · simp [h1, h2, NT_SUCCESS, STATUS_INVALID_PAGE_PROTECTION]
  by_cases h3 : (rangePages addr size).all s.committed = false
  · simp [h1, h2, h3, NT_SUCCESS, STATUS_NOT_COMMITTED]
  · simp [h1, h2, h3, NT_SUCCESS, STATUS_SUCCESS]

lemma protect_fail_state {s : VmState} {addr size p : Nat}
    (h : ¬ NT_SUCCESS (NtProtectVirtualMemory s addr size p).status) :
    (NtProtectVirtualMemory s addr size p).state = s := by
  unfold NtProtectVirtualMemory at h ⊢
  by_cases h1 : size = 0
  · simp [h1]
  by_cases h2 : validProt p = false
  · simp [h1, h2]
  by_cases h3 : (rangePages addr size).all s.committed = false
  · simp [h1, h2, h3]
  · exfalso
    apply h
    simp [h1, h2, h3, NT_SUCCESS, STATUS_SUCCESS]

lemma protect_succ_eq {s : VmState} {addr size p : Nat}
    (h1 : size ≠ 0) (h2 : validProt p = true)
    (h3 : (rangePages addr size).all s.committed = true) :
    NtProtectVirtualMemory s addr size p =
      ⟨STATUS_SUCCESS, protState s addr size p,
       pageLo addr * PAGE_SIZE,
       pageCnt addr size * PAGE_SIZE,
       s.pageProt (pageLo addr)⟩ := by
  unfold NtProtectVirtualMemory
  simp [h1, h2, h3]

lemma write_succ {s : VmState} {d : Nat} {src : List Nat}
    (hw : s.writeAccess = true) (hlen : src.length ≠ 0)
    (hall : (rangePages d src.length).all
      (fun p => s.committed p && protWritable (s.pageProt p)) = true) :
    NtWriteVirtualMemory s d src = (STATUS_SUCCESS, writtenState s d src) := by
  unfold NtWriteVirtualMemory
  simp [hw, hlen, hall]

lemma write_noaccess {s : VmState} {d : Nat} {src : List Nat}
    (h : s.writeAccess = false) :
    NtWriteVirtualMemory s d src = (STATUS_ACCESS_DENIED, s) := by
  unfold NtWriteVirtualMemory
  simp [h]

lemma write_preserves (s : VmState) (d : Nat) (src : List Nat) :
    ((NtWriteVirtualMemory s d src).2).committed = s.committed ∧
    ((NtWriteVirtualMemory s d src).2).pageProt = s.pageProt ∧
    ((NtWriteVirtualMemory s d src).2).writeAccess = s.writeAccess := by
  unfold NtWriteVirtualMemory
  repeat' split
  all_goals exact ⟨rfl, rfl, rfl⟩

lemma kexWrite_fail_path {s : VmState} {D : Nat} {Src : List Nat}
    (hps : ¬ NT_SUCCESS (NtProtectVirtualMemory s D Src.length PAGE_READWRITE).status) :
    KexRtlWriteProcessMemory s D Src =
      ((NtProtectVirtualMemory s D Src.length PAGE_READWRITE).status, s) := by
  unfold KexRtlWriteProcessMemory
  rw [if_neg hps, protect_fail_state hps]

lemma kexWrite_succ_path {s : VmState} {D : Nat} {Src : List Nat}
    (hps : NT_SUCCESS (NtProtectVirtualMemory s D Src.length PAGE_READWRITE).status) :
    KexRtlWriteProcessMemory s D Src =
      ((NtWriteVirtualMemory
          (NtProtectVirtualMemory s D Src.length PAGE_READWRITE).state D Src).1,
       (NtProtectVirtualMemory
          (NtWriteVirtualMemory
            (NtProtectVirtualMemory s D Src.length PAGE_READWRITE).state D Src).2
          (NtProtectVirtualMemory s D Src.length PAGE_READWRITE).baseAddress
          (NtProtectVirtualMemory s D Src.length PAGE_READWRITE).regionSize
          (NtProtectVirtualMemory s D Src.length PAGE_READWRITE).oldProtect).state) := by
  unfold KexRtlWriteProcessMemory
  rw [if_pos hps]

/-! ## C1 -/

/-- C1: for every successful `KexRtlWriteProcessMemory` call on an originally
read-only destination, after the call the destination bytes equal the source
bytes and every page's protection equals its pre-call protection — protection
is never left relaxed on the success path. -/
theorem kexRtlWriteProcessMemory_success_restores (s : VmState) (Destination : Nat)
    (Source : List Nat)
    (hro : ∀ p, pageLo Destination ≤ p → p < pageHiEx Destination Source.length →
      s.pageProt p = PAGE_READONLY)
    (hok : NT_SUCCESS (KexRtlWriteProcessMemory s Destination Source).1) :
    (∀ i, i < Source.length →
      ((KexRtlWriteProcessMemory s Destination Source).2).mem (Destination + i)
        = Source.getD i 0)
    ∧ ∀ p, ((KexRtlWriteProcessMemory s Destination Source).2).pageProt p
        = s.pageProt p := by
  have hps : NT_SUCCESS
      (NtProtectVirtualMemory s Destination Source.length PAGE_READWRITE).status := by
    by_contra hps
    rw [kexWrite_fail_path hps] at hok
    exact hps hok
  obtain ⟨hsz, hvp, hcom⟩ :=
    (protect_succ_iff s Destination Source.length PAGE_READWRITE).mp hps
  have hr1 := protect_succ_eq (p := PAGE_READWRITE) hsz hvp hcom
  rw [kexWrite_succ_path hps] at hok ⊢
  rw [hr1] at hok ⊢
  dsimp only at hok ⊢
  -- the write must also have succeeded
  have hwa : s.writeAccess = true := by
    by_contra hwa
    rw [Bool.not_eq_true] at hwa
    rw [write_noaccess
      (show (protState s Destination Source.length PAGE_READWRITE).writeAccess = false
        from hwa)] at hok
    exact absurd (show NT_SUCCESS STATUS_ACCESS_DENIED from hok) (by decide)
  have hall : (rangePages Destination Source.length).all
      (fun p => (protState s Destination Source.length PAGE_READWRITE).committed p &&
        protWritable
          ((protState s Destination Source.length PAGE_READWRITE).pageProt p)) = true := by
    rw [all_rangePages]
    intro p h1 h2
    have hc := all_rangePages.mp hcom p h1 h2
    simp only [protState]
    rw [hc, if_pos (And.intro h1 h2)]
    decide
  have hw := write_succ
    (show (protState s Destination Source.length PAGE_READWRITE).writeAccess = true
      from hwa) hsz hall
  rw [hw]
  dsimp only
  -- the restore call succeeds and re-establishes the original protection
  have holdp : s.pageProt (pageLo Destination) = PAGE_READONLY :=
    hro _ (Nat.le_refl _) (pageLo_lt_pageHiEx hsz)
  have hrsz : pageCnt Destination Source.length * PAGE_SIZE ≠ 0 := by
    have := pageLo_lt_pageHiEx (a := Destination) hsz
    unfold pageCnt PAGE_SIZE
    omega
  have hrcom : (rangePages (pageLo Destination * PAGE_SIZE)
      (pageCnt Destination Source.length * PAGE_SIZE)).all
      ((writtenState (protState s Destination Source.length PAGE_READWRITE)
        Destination Source).committed) = true := by
    rw [rangePages_floor]
    exact hcom
  rw [holdp, protect_succ_eq (p := PAGE_READONLY) hrsz (by decide) hrcom]
  dsimp only
  simp only [protState, writtenState]
  constructor
  · intro i hi
    have e1 : Destination ≤ Destination + i := Nat.le_add_right _ _
    have e2 : Destination + i < Destination + Source.length := by omega
    simp only [if_pos (And.intro e1 e2)]
    congr 1
    omega
  · intro p
    simp only [pageLo_mul, pageHiEx_mul]
    by_cases hp : pageLo Destination ≤ p ∧ p < pageHiEx Destination Source.length
    · have hcnd : pageLo Destination ≤ p ∧
          p < pageLo Destination + pageCnt Destination Source.length := by
        have := pageLo_le_pageHiEx Destination Source.length
        unfold pageCnt
        omega
      rw [if_pos hcnd, (hro p hp.1 hp.2).symm]
    · have hcnd : ¬ (pageLo Destination ≤ p ∧
          p < pageLo Destination + pageCnt Destination Source.length) := by
        have := pageLo_le_pageHiEx Destination Source.length
        unfold pageCnt
        omega
      rw [if_neg hcnd, if_neg hp]

/-- A concrete committed, uniformly read-only target state. -/
def w1State : VmState := ⟨fun _ => true, fun _ => PAGE_READONLY, fun _ => 0, true⟩

/-- Witness for C1: writing `[7, 8]` at `0x1000` into a read-only committed
page succeeds, stores the bytes, and leaves the page protection unchanged. -/
theorem kexRtlWriteProcessMemory_success_restores_witness :
    ((KexRtlWriteProcessMemory w1State 4096 [7, 8]).2).mem 4097 = 8 ∧
    ((KexRtlWriteProcessMemory w1State 4096 [7, 8]).2).pageProt 1
      = w1State.pageProt 1 := by
  have h := kexRtlWriteProcessMemory_success_restores w1State 4096 [7, 8]
    (by intro p h1 h2; rfl) (by decide)
  exact ⟨by simpa using h.1 1 (by norm_num), h.2 1⟩

/-! ## C7 -/

/-- C7: if the initial protection change fails, `KexRtlWriteProcessMemory`
returns that failure with the state unchanged (no write, no restore);
otherwise the restore of the captured protection is attempted on the
reported-back range regardless of the write's outcome, its status is
discarded, and the function's return value is the write's status. -/
theorem kexRtlWriteProcessMemory_error_paths (s : VmState) (Destination : Nat)
    (Source : List Nat) :
    (¬ NT_SUCCESS
        (NtProtectVirtualMemory s Destination Source.length PAGE_READWRITE).status →
      KexRtlWriteProcessMemory s Destination Source =
        ((NtProtectVirtualMemory s Destination Source.length PAGE_READWRITE).status, s))
    ∧ (NT_SUCCESS
        (NtProtectVirtualMemory s Destination Source.length PAGE_READWRITE).status →
      (KexRtlWriteProcessMemory s Destination Source).1 =
        (NtWriteVirtualMemory
          (NtProtectVirtualMemory s Destination Source.length PAGE_READWRITE).state
          Destination Source).1
      ∧ (KexRtlWriteProcessMemory s Destination Source).2 =
        (NtProtectVirtualMemory
          (NtWriteVirtualMemory
            (NtProtectVirtualMemory s Destination Source.length PAGE_READWRITE).state
            Destination Source).2
          (NtProtectVirtualMemory s Destination Source.length PAGE_READWRITE).baseAddress
          (NtProtectVirtualMemory s Destination Source.length PAGE_READWRITE).regionSize
          (NtProtectVirtualMemory s Destination Source.length PAGE_READWRITE).oldProtect
          ).state) := by
  constructor
  · intro h
    exact kexWrite_fail_path h
  · intro h
    rw [kexWrite_succ_path h]
    exact ⟨rfl, rfl⟩

/-- A target state with no committed pages (the initial protection change
fails). -/
def wFailState : VmState := ⟨fun _ => false, fun _ => PAGE_READONLY, fun _ => 0, true⟩

/-- A committed read-only target state reached through a handle without write
access (the protection change succeeds, the write itself fails). -/
def wDenyState : VmState := ⟨fun _ => true, fun _ => PAGE_READONLY, fun _ => 0, false⟩

/-- Witness for C7: on a non-committed destination the call returns the
protect failure with the state untouched; on a write-denied handle the
returned status is the write's failure code, yet the protection was still
restored to read-only. -/
theorem kexRtlWriteProcessMemory_error_paths_witness :
    KexRtlWriteProcessMemory wFailState 0 [5]
      = ((NtProtectVirtualMemory wFailState 0 1 PAGE_READWRITE).status, wFailState)
    ∧ (KexRtlWriteProcessMemory wDenyState 4096 [7]).1 = STATUS_ACCESS_DENIED
    ∧ ((KexRtlWriteProcessMemory wDenyState 4096 [7]).2).pageProt 1 = PAGE_READONLY := by
  refine ⟨(kexRtlWriteProcessMemory_error_paths wFailState 0 [5]).1 (by decide),
    (((kexRtlWriteProcessMemory_error_paths wDenyState 4096 [7]).2
      (by decide)).1).trans (by decide), ?_⟩
  rw [(((kexRtlWriteProcessMemory_error_paths wDenyState 4096 [7]).2 (by decide)).2)]
  decide

/-! ## C10 -/

/-- C10: when the first protection change succeeds, the restore call operates
on the page-rounded range the first call reported back through its in/out
pointers (not necessarily the caller's `Destination`/`Cb` pair) and restores
the protection value the first call captured — and does so whether or not the
write succeeded. -/
theorem kexRtlWriteProcessMemory_restore_uses_adjusted_range (s : VmState)
    (Destination : Nat) (Source : List Nat)
    (hps : NT_SUCCESS
      (NtProtectVirtualMemory s Destination Source.length PAGE_READWRITE).status)
    (hvp : validProt (s.pageProt (pageLo Destination)) = true) :
    (NtProtectVirtualMemory s Destination Source.length PAGE_READWRITE).baseAddress
      = pageLo Destination * PAGE_SIZE
    ∧ (NtProtectVirtualMemory s Destination Source.length PAGE_READWRITE).regionSize
      = pageCnt Destination Source.length * PAGE_SIZE
    ∧ (NtProtectVirtualMemory s Destination Source.length PAGE_READWRITE).oldProtect
      = s.pageProt (pageLo Destination)
    ∧ ∀ p, pageLo Destination ≤ p → p < pageHiEx Destination Source.length →
        ((KexRtlWriteProcessMemory s Destination Source).2).pageProt p
          = s.pageProt (pageLo Destination) := by
  obtain ⟨hsz, hvpw, hcom⟩ :=
    (protect_succ_iff s Destination Source.length PAGE_READWRITE).mp hps
  have hr1 := protect_succ_eq (p := PAGE_READWRITE) hsz hvpw hcom
  refine ⟨by rw [hr1], by rw [hr1], by rw [hr1], ?_⟩
  intro p h1 h2
  rw [kexWrite_succ_path hps, hr1]
  dsimp only
  have hpres := write_preserves
    (protState s Destination Source.length PAGE_READWRITE) Destination Source
  have hrsz : pageCnt Destination Source.length * PAGE_SIZE ≠ 0 := by
    have := pageLo_lt_pageHiEx (a := Destination) hsz
    unfold pageCnt PAGE_SIZE
    omega
  have hrcom : (rangePages (pageLo Destination * PAGE_SIZE)
      (pageCnt Destination Source.length * PAGE_SIZE)).all
      ((NtWriteVirtualMemory (protState s Destination Source.length PAGE_READWRITE)
        Destination Source).2).committed = true := by
    rw [rangePages_floor, hpres.1]
    exact hcom
  rw [protect_succ_eq (p := s.pageProt (pageLo Destination)) hrsz hvp hrcom]
  dsimp only [protState]
  simp only [pageLo_mul, pageHiEx_mul]
  have hcnd : pageLo Destination ≤ p ∧
      p < pageLo Destination + pageCnt Destination Source.length := by
    have := pageLo_le_pageHiEx Destination Source.length
    unfold pageCnt
    exact ⟨h1, by omega⟩
  rw [if_pos hcnd]

/-- Witness for C10: with a misaligned destination `0x1004` the reported-back
restore base is the page base `0x1000`, and after a call whose write step
failed (write-denied handle) the covered page is back to read-only. -/
theorem kexRtlWriteProcessMemory_restore_uses_adjusted_range_witness :
    (NtProtectVirtualMemory wDenyState 4100 2 PAGE_READWRITE).baseAddress = 4096
    ∧ ((KexRtlWriteProcessMemory wDenyState 4100 [1, 2]).2).pageProt 1
      = PAGE_READONLY := by
  have h := kexRtlWriteProcessMemory_restore_uses_adjusted_range wDenyState 4100 [1, 2]
    (by decide) (by decide)
  exact ⟨h.1.trans (by decide), (h.2.2.2 1 (by decide) (by decide)).trans (by decide)⟩

/-! ## C2 -/

/-- C2: `KexRtlRemoteProcessBitness` always returns 32 or 64; it returns 32
whenever the operating-system bitness is 32 (regardless of the process
queried); otherwise it returns 32 exactly when the `ProcessWow64Information`
query succeeds with a non-zero value, defaulting to 64 when the value is zero
or the query fails. -/
theorem kexRtlRemoteProcessBitness_spec (os : Nat) (q : Wow64Query) :
    (KexRtlRemoteProcessBitness os q = 32 ∨ KexRtlRemoteProcessBitness os q = 64)
    ∧ (os = 32 → KexRtlRemoteProcessBitness os q = 32)
    ∧ (os ≠ 32 →
        (KexRtlRemoteProcessBitness os q = 32 ↔ NT_SUCCESS q.status ∧ q.peb32 ≠ 0)) := by
  unfold KexRtlRemoteProcessBitness
  by_cases h1 : os = 32
  · simp [h1]
  by_cases h2 : NT_SUCCESS q.status ∧ q.peb32 ≠ 0
  · simp [h1, h2]
  · simp [h1, h2]

/-- Witness for C2: a 32-bit OS forces 32 even for a failed query; on a
64-bit OS a successful query with non-zero WOW64 PEB gives 32 and a failed
query gives 64 (fail-open). -/
theorem kexRtlRemoteProcessBitness_spec_witness :
    KexRtlRemoteProcessBitness 32 ⟨0xC0000001, 0⟩ = 32
    ∧ KexRtlRemoteProcessBitness 64 ⟨0, 0x7000⟩ = 32
    ∧ KexRtlRemoteProcessBitness 64 ⟨0xC0000001, 0x7000⟩ = 64 := by
  refine ⟨(kexRtlRemoteProcessBitness_spec 32 ⟨0xC0000001, 0⟩).2.1 rfl,
    ((kexRtlRemoteProcessBitness_spec 64 ⟨0, 0x7000⟩).2.2 (by decide)).mpr
      ⟨by decide, by decide⟩, ?_⟩
  have h := (kexRtlRemoteProcessBitness_spec 64 ⟨0xC0000001, 0x7000⟩)
  refine (h.1).resolve_left (fun h32 => ?_)
  have := (h.2.2 (by decide)).mp h32
  exact absurd this.1 (by decide)

/-! ## C3 and C8: export resolver -/

lemma scanNames_not_mem {names : List (List Char)} {pn : List Char}
    (h : pn ∉ names) : scanNames names pn = none := by
  induction names with
  | nil => rfl
  | cons n rest ih =>
    simp only [List.mem_cons, not_or] at h
    simp only [scanNames]
    rw [if_neg (fun e => h.1 e.symm), ih h.2]
    rfl

lemma scanNames_first {names : List (List Char)} {pn : List Char} :
    ∀ i, i < names.length → names.getD i [] = pn →
      (∀ j, j < i → names.getD j [] ≠ pn) → scanNames names pn = some i := by
  induction names with
  | nil => intro i hi; simp at hi
  | cons n rest ih =>
    intro i hi hget hfirst
    by_cases hn : n = pn
    · have hi0 : i = 0 := by
        by_contra h0
        exact hfirst 0 (by omega) (by simpa using hn)
      subst hi0
      simp [scanNames, hn]
    · have hi0 : i ≠ 0 := by
        intro h0
        subst h0
        exact hn (by simpa using hget)
      obtain ⟨i', rfl⟩ : ∃ i', i = i' + 1 := ⟨i - 1, by omega⟩
      have hrec := ih i' (by simpa using hi) (by simpa using hget)
        (fun j hj => by
          have := hfirst (j + 1) (by omega)
          simpa using this)
      simp [scanNames, hn, hrec]

/-- C3: `KexRtlMiniGetProcedureAddress` scans the export name table linearly;
at the first exact match of the requested name it returns the image base plus
the export-address-table entry indexed by that name's ordinal, and when the
name is absent from the table it returns `STATUS_ENTRYPOINT_NOT_FOUND`. -/
theorem kexRtlMiniGetProcedureAddress_first_match
    (exportDirOf : Nat → Option ExportDirectoryView) (B : Nat)
    (ed : ExportDirectoryView) (pn : List Char)
    (hB : B ≠ 0) (hed : exportDirOf B = some ed) :
    (∀ i, i < ed.names.length → ed.names.getD i [] = pn →
      (∀ j, j < i → ed.names.getD j [] ≠ pn) →
      KexRtlMiniGetProcedureAddress exportDirOf B (some pn) false =
        (STATUS_SUCCESS, some (B + ed.functions.getD (ed.nameOrdinals.getD i 0) 0)))
    ∧ (pn ∉ ed.names →
      KexRtlMiniGetProcedureAddress exportDirOf B (some pn) false =
        (STATUS_ENTRYPOINT_NOT_FOUND, some 0)) := by
  have hguard : ¬ (B = 0 ∨ (some pn : Option (List Char)) = none ∨ (false : Bool) = true) := by
    simp [hB]
  constructor
  · intro i hi hget hfirst
    unfold KexRtlMiniGetProcedureAddress
    rw [if_neg hguard, hed]
    dsimp only
    rw [scanNames_first i hi hget hfirst]
  · intro hmem
    unfold KexRtlMiniGetProcedureAddress
    rw [if_neg hguard, hed]
    dsimp only
    rw [scanNames_not_mem hmem]

/-- The spec's scenario image: one export, name `Foo` at ordinal 0, mapped to
offset `0x2000`. -/
def edFoo : ExportDirectoryView := ⟨["Foo".data], [0], [0x2000]⟩

/-- A memory layout in which image base `0x10000` carries `edFoo` and no
other address resolves to an export directory. -/
def envFoo : Nat → Option ExportDirectoryView :=
  fun b => if b = 0x10000 then some edFoo else none

/-- Witness for C3: resolving `Foo` on the scenario image returns base plus
`0x2000`; resolving the absent `Zzz` returns the entry-point-not-found
status. -/
theorem kexRtlMiniGetProcedureAddress_first_match_witness :
    KexRtlMiniGetProcedureAddress envFoo 0x10000 (some ("Foo".data)) false
      = (STATUS_SUCCESS, some (0x10000 + 0x2000))
    ∧ KexRtlMiniGetProcedureAddress envFoo 0x10000 (some ("Zzz".data)) false
      = (STATUS_ENTRYPOINT_NOT_FOUND, some 0) := by
  have h := kexRtlMiniGetProcedureAddress_first_match envFoo 0x10000 edFoo ("Foo".data)
    (by decide) rfl
  have h2 := kexRtlMiniGetProcedureAddress_first_match envFoo 0x10000 edFoo ("Zzz".data)
    (by decide) rfl
  refine ⟨?_, h2.2 (by decide)⟩
  exact (h.1 0 (by decide) (by decide) (fun j hj => absurd hj (by omega))).trans (by decide)

/-- C8: a NULL image base, procedure-name pointer, or output pointer makes
`KexRtlMiniGetProcedureAddress` return `STATUS_INVALID_PARAMETER` without
writing the output slot and without consulting the image (the result is the
same for every memory layout `exportDirOf`). -/
theorem kexRtlMiniGetProcedureAddress_null_args
    (exportDirOf : Nat → Option ExportDirectoryView) (B : Nat)
    (pn : Option (List Char)) (pAddrNull : Bool)
    (h : B = 0 ∨ pn = none ∨ pAddrNull = true) :
    KexRtlMiniGetProcedureAddress exportDirOf B pn pAddrNull
      = (STATUS_INVALID_PARAMETER, none) := by
  unfold KexRtlMiniGetProcedureAddress
  rw [if_pos h]

/-- Witness for C8: a NULL image base is rejected up front. -/
theorem kexRtlMiniGetProcedureAddress_null_args_witness :
    KexRtlMiniGetProcedureAddress envFoo 0 (some ("Foo".data)) false
      = (STATUS_INVALID_PARAMETER, none) :=
  kexRtlMiniGetProcedureAddress_null_args envFoo 0 (some ("Foo".data)) false (Or.inl rfl)

/-! ## C4, C5, C6, C9: native module locator -/

/-- The kernel's contract for `MemoryBasicInformation`: the allocation base
of a region never exceeds the queried address. -/
def AllocBaseLe (env : LocEnv) : Prop :=
  ∀ a b t, env.queryBasic a = some (b, t) → b ≤ a

/-- Address `b` references a region of type image whose mapped-file path ends
with `Windows\system32\ntdll.dll` case-insensitively. -/
def regionIsNativeNtdll (env : LocEnv) (b : Nat) : Prop :=
  (∃ nm, env.queryMappedName b = some nm ∧
    KexRtlUnicodeStringEndsWith nm ntdllPathFragment true = true)
  ∧ ∃ ab, env.queryBasic b = some (ab, MEM_IMAGE)

/-- The loader's contract: a base it hands out for `ntdll.dll` references the
mapped native NTDLL image. -/
def LoaderSound (env : LocEnv) : Prop :=
  ∀ b, env.loaderNtdll = some b → regionIsNativeNtdll env b

/-- The kernel's contract: querying the allocation base of a region yields
the same allocation base and region type as querying any address inside it. -/
def BasicCoherent (env : LocEnv) : Prop :=
  ∀ a b t, env.queryBasic a = some (b, t) → env.queryBasic b = some (b, t)

/-- The kernel's contract: the mapped-file name at the allocation base equals
the mapped-file name at any address of the same region. -/
def NameCoherent (env : LocEnv) : Prop :=
  ∀ a b t, env.queryBasic a = some (b, t) → env.queryMappedName b = env.queryMappedName a

lemma scanStep_inl {env : LocEnv} {addr base : Nat}
    (h : scanStep env addr = Sum.inl base) :
    ∃ nm, env.queryMappedName addr = some nm ∧
      KexRtlUnicodeStringEndsWith nm ntdllPathFragment true = true ∧
      env.queryBasic addr = some (base, MEM_IMAGE) := by
  unfold scanStep at h
  cases hq : env.queryMappedName addr with
  | none => rw [hq] at h; simp at h
  | some nm =>
    rw [hq] at h
    cases hb : env.queryBasic addr with
    | none => rw [hb] at h; simp at h
    | some pr =>
      obtain ⟨ab, t⟩ := pr
      rw [hb] at h
      dsimp only at h
      by_cases ht : t ≠ MEM_IMAGE
      · rw [if_pos ht] at h; simp at h
      · rw [if_neg ht] at h
        have ht' : t = MEM_IMAGE := by
          by_contra hc
          exact ht hc
        by_cases he : KexRtlUnicodeStringEndsWith nm ntdllPathFragment true = true
        · rw [if_pos he] at h
          have hab : ab = base := by simpa using h
          subst hab
          subst ht'
          exact ⟨nm, rfl, he, rfl⟩
        · rw [if_neg he] at h; simp at h

lemma scanStep_inr_le {env : LocEnv} {addr next : Nat} (hA : AllocBaseLe env)
    (h : scanStep env addr = Sum.inr next) : next ≤ addr - 0x10000 := by
  unfold scanStep at h
  cases hq : env.queryMappedName addr with
  | none =>
    rw [hq] at h
    have : addr - 0x10000 = next := by simpa using h
    omega
  | some nm =>
    rw [hq] at h
    cases hb : env.queryBasic addr with
    | none =>
      rw [hb] at h
      have : addr - 0x10000 = next := by simpa using h
      omega
    | some pr =>
      obtain ⟨ab, t⟩ := pr
      rw [hb] at h
      dsimp only at h
      have hable : ab ≤ addr := hA addr ab t hb
      by_cases ht : t ≠ MEM_IMAGE
      · rw [if_pos ht] at h
        have : ab - 0x10000 = next := by simpa using h
        omega
      · rw [if_neg ht] at h
        by_cases he : KexRtlUnicodeStringEndsWith nm ntdllPathFragment true = true
        · rw [if_pos he] at h; simp at h
        · rw [if_neg he] at h
          have : ab - 0x10000 = next := by simpa using h
          omega

lemma iterQueries_le (env : LocEnv) (addr : Nat) : iterQueries env addr ≤ 2 := by
  unfold iterQueries
  cases hq : env.queryMappedName addr <;> simp

lemma nativeDllScan_total (env : LocEnv) (hA : AllocBaseLe env) :
    ∀ fuel addr, addr ≤ 0x70000000 + fuel * 0x10000 →
      (nativeDllScan env fuel addr).1 ≠ none ∧
      (nativeDllScan env fuel addr).2 ≤ 2 * fuel := by
  intro fuel
  induction fuel with
  | zero =>
    intro addr h
    have hng : ¬ 0x70000000 < addr := by omega
    unfold nativeDllScan
    rw [if_neg hng]
    exact ⟨by simp, by omega⟩
  | succ fuel ih =>
    intro addr h
    by_cases hgt : 0x70000000 < addr
    · have hiq := iterQueries_le env addr
      unfold nativeDllScan
      rw [if_pos hgt]
      cases hs : scanStep env addr with
      | inl base =>
        refine ⟨?_, ?_⟩ <;> dsimp only
        · simp
        · omega
      | inr next =>
        have hle := scanStep_inr_le hA hs
        have hnext : next ≤ 0x70000000 + fuel * 0x10000 := by omega
        have hrec := ih next hnext
        refine ⟨?_, ?_⟩ <;> dsimp only
        · exact hrec.1
        · have := hrec.2
          omega
    · unfold nativeDllScan
      rw [if_neg hgt]
      exact ⟨by simp, by omega⟩

lemma nativeDllScan_found (env : LocEnv) (hB : BasicCoherent env) (hN : NameCoherent env) :
    ∀ fuel addr b, (nativeDllScan env fuel addr).1 = some (some b) →
      regionIsNativeNtdll env b := by
  intro fuel
  induction fuel with
  | zero =>
    intro addr b h
    unfold nativeDllScan at h
    by_cases hgt : 0x70000000 < addr
    · rw [if_pos hgt] at h; simp at h
    · rw [if_neg hgt] at h; simp at h
  | succ fuel ih =>
    intro addr b h
    by_cases hgt : 0x70000000 < addr
    · unfold nativeDllScan at h
      rw [if_pos hgt] at h
      cases hs : scanStep env addr with
      | inl base =>
        rw [hs] at h
        have hbb : base = b := by simpa using h
        subst hbb
        obtain ⟨nm, hq, he, hbasic⟩ := scanStep_inl hs
        refine ⟨⟨nm, ?_, he⟩, ⟨base, hB addr base MEM_IMAGE hbasic⟩⟩
        rw [hN addr base MEM_IMAGE hbasic, hq]
      | inr next =>
        rw [hs] at h
        exact ih next b h
    · unfold nativeDllScan at h
      rw [if_neg hgt] at h
      simp at h

lemma nativeDllScan_never_found (env : LocEnv)
    (hnone : ∀ addr b, scanStep env addr ≠ Sum.inl b) :
    ∀ fuel addr, (nativeDllScan env fuel addr).1 = none ∨
      (nativeDllScan env fuel addr).1 = some none := by
  intro fuel
  induction fuel with
  | zero =>
    intro addr
    unfold nativeDllScan
    by_cases hgt : 0x70000000 < addr
    · rw [if_pos hgt]; exact Or.inl rfl
    · rw [if_neg hgt]; exact Or.inr rfl
  | succ fuel ih =>
    intro addr
    by_cases hgt : 0x70000000 < addr
    · unfold nativeDllScan
      rw [if_pos hgt]
      cases hs : scanStep env addr with
      | inl base => exact absurd hs (hnone addr base)
      | inr next => exact ih next
    · unfold nativeDllScan
      rw [if_neg hgt]
      exact Or.inr rfl

lemma option_join_eq_some {o : Option (Option Nat)} {b : Nat}
    (h : Option.join o = some b) : o = some (some b) := by
  rcases o with _ | o'
  · simp [Option.join] at h
  · rcases o' with _ | x
    · simp [Option.join] at h
    · simp [Option.join] at h
      simp [h]

/-- C4: every non-null base `KexRtlGetNativeSystemDllBase` returns — whether
from the loader fast path (under the loader's contract) or from the scan —
references a region of type image whose mapped-file path ends with the
expected system-module name case-insensitively (under the kernel's region
coherence contracts). -/
theorem kexRtlGetNativeSystemDllBase_image (env : LocEnv)
    (hL : LoaderSound env) (hB : BasicCoherent env) (hN : NameCoherent env) :
    ∀ b, KexRtlGetNativeSystemDllBase env = some b → regionIsNativeNtdll env b := by
  intro b h
  unfold KexRtlGetNativeSystemDllBase at h
  by_cases hbit : env.currentBitness = env.osBitness
  · rw [if_pos hbit] at h
    cases hld : env.loaderNtdll with
    | some base =>
      rw [hld] at h
      have hbb : base = b := by simpa using h
      subst hbb
      exact hL base hld
    | none =>
      rw [hld] at h
      dsimp only at h
      exact nativeDllScan_found env hB hN SCAN_FUEL SCAN_START b (option_join_eq_some h)
  · rw [if_neg hbit] at h
    exact nativeDllScan_found env hB hN SCAN_FUEL SCAN_START b (option_join_eq_some h)

/-- An environment in which the native NTDLL image occupies
`[0x7F100000, 0x7F150000)` with allocation base `0x7F100000`, seen from a
32-bit process on a 64-bit OS (so the fast path is skipped). -/
def goodEnv : LocEnv :=
  ⟨32, 64, none,
   fun a => if 0x7F100000 ≤ a ∧ a < 0x7F150000 then
      some ("C:\\Windows\\system32\\ntdll.dll".data) else none,
   fun a => if 0x7F100000 ≤ a ∧ a < 0x7F150000 then
      some (0x7F100000, MEM_IMAGE) else none⟩

/-- Witness for C4: in `goodEnv` the locator returns `0x7F100000`, and that
base indeed references the mapped native NTDLL image. -/
theorem kexRtlGetNativeSystemDllBase_image_witness :
    regionIsNativeNtdll goodEnv 0x7F100000 := by
  refine kexRtlGetNativeSystemDllBase_image goodEnv ?_ ?_ ?_ 0x7F100000 (by decide)
  · intro b hb
    simp [goodEnv] at hb
  · intro a b t hb
    by_cases hP : 0x7F100000 ≤ a ∧ a < 0x7F150000
    · simp only [goodEnv, if_pos hP] at hb
      have hb' : b = 0x7F100000 ∧ MEM_IMAGE = t := by
        have := hb
        simp at this
        exact ⟨this.1.symm, this.2⟩
      obtain ⟨rfl, rfl⟩ := hb'
      simp [goodEnv]
    · simp only [goodEnv, if_neg hP] at hb
      simp at hb
  · intro a b t hb
    by_cases hP : 0x7F100000 ≤ a ∧ a < 0x7F150000
    · simp only [goodEnv, if_pos hP] at hb
      have hb' : b = 0x7F100000 := by
        have := hb
        simp at this
        exact this.1.symm
      subst hb'
      simp only [goodEnv, if_pos hP]
      norm_num
    · simp only [goodEnv, if_neg hP] at hb
      simp at hb

/-- C5: under the kernel's allocation-base contract the probe address
strictly decreases on every scan iteration — including iterations that
replace the candidate by the region's allocation base — and the scan with
fuel for exactly the fixed range `0x7FFD0000 > addr > 0x70000000` never
exhausts its fuel, even when every probe fails. -/
theorem kexRtlGetNativeSystemDllBase_scan_decreases (env : LocEnv)
    (hA : AllocBaseLe env) :
    (∀ addr next, 0x70000000 < addr → scanStep env addr = Sum.inr next → next < addr)
    ∧ (nativeDllScan env SCAN_FUEL SCAN_START).1 ≠ none := by
  constructor
  · intro addr next hgt hs
    have := scanStep_inr_le hA hs
    omega
  · exact (nativeDllScan_total env hA SCAN_FUEL SCAN_START (by decide)).1

/-- An environment in which every `NtQueryVirtualMemory` probe fails and the
fast path is unavailable (bitness mismatch, no loader record). -/
def allFailEnv : LocEnv := ⟨32, 64, none, fun _ => none, fun _ => none⟩

/-- Witness for C5: in the all-fail environment the first iteration steps
from `0x7FFD0000` strictly down to `0x7FFC0000`, and the whole scan
terminates without exhausting its fuel. -/
theorem kexRtlGetNativeSystemDllBase_scan_decreases_witness :
    (0x7FFC0000 : Nat) < 0x7FFD0000
    ∧ (nativeDllScan allFailEnv SCAN_FUEL SCAN_START).1 ≠ none := by
  have h := kexRtlGetNativeSystemDllBase_scan_decreases allFailEnv
    (by intro a b t hb; simp [allFailEnv] at hb)
  exact ⟨h.1 0x7FFD0000 0x7FFC0000 (by decide) (by decide), h.2⟩

/-- C6: when the fast path is unavailable and no probe of the scan matches,
`KexRtlGetNativeSystemDllBase` returns `none` — never a default or fallback
base (and, being a total function, never an exception). -/
theorem kexRtlGetNativeSystemDllBase_notFound (env : LocEnv) (hA : AllocBaseLe env)
    (hfast : env.currentBitness ≠ env.osBitness ∨ env.loaderNtdll = none)
    (hnone : ∀ addr b, scanStep env addr ≠ Sum.inl b) :
    KexRtlGetNativeSystemDllBase env = none := by
  have hterm := (nativeDllScan_total env hA SCAN_FUEL SCAN_START (by decide)).1
  have hnf := nativeDllScan_never_found env hnone SCAN_FUEL SCAN_START
  have hsome : (nativeDllScan env SCAN_FUEL SCAN_START).1 = some none := by
    rcases hnf with h | h
    · exact absurd h hterm
    · exact h
  unfold KexRtlGetNativeSystemDllBase
  by_cases hbit : env.currentBitness = env.osBitness
  · rw [if_pos hbit]
    rcases hfast with h | h
    · exact absurd hbit h
    · rw [h]
      dsimp only
      rw [hsome]
      rfl
  · rw [if_neg hbit, hsome]
    rfl

/-- Witness for C6: the all-fail environment (every probe fails, zero
matches) yields the not-found result. -/
theorem kexRtlGetNativeSystemDllBase_notFound_witness :
    KexRtlGetNativeSystemDllBase allFailEnv = none :=
  kexRtlGetNativeSystemDllBase_notFound allFailEnv
    (by intro a b t hb; simp [allFailEnv] at hb)
    (Or.inl (by decide))
    (by intro addr b h; simp [scanStep, allFailEnv] at h)

/-- Exact query count of the scan in the all-fail environment: starting at
`0x70000000 + n * 0x10000` with fuel at least `n`, the scan exhausts the
range performing exactly `n` OS queries. -/
lemma allFail_count : ∀ n fuel, n ≤ fuel →
    nativeDllScan allFailEnv fuel (0x70000000 + n * 0x10000) = (some none, n) := by
  intro n
  induction n with
  | zero =>
    intro fuel h
    have hng : ¬ 0x70000000 < 0x70000000 + 0 * 0x10000 := by omega
    cases fuel with
    | zero => unfold nativeDllScan; rw [if_neg hng]
    | succ f => unfold nativeDllScan; rw [if_neg hng]
  | succ n ih =>
    intro fuel h
    obtain ⟨f, rfl⟩ : ∃ f, fuel = f + 1 := ⟨fuel - 1, by omega⟩
    have hg : 0x70000000 < 0x70000000 + (n + 1) * 0x10000 := by omega
    unfold nativeDllScan
    rw [if_pos hg]
    have hs : scanStep allFailEnv (0x70000000 + (n + 1) * 0x10000) =
        Sum.inr (0x70000000 + (n + 1) * 0x10000 - 0x10000) := rfl
    rw [hs]
    have he : 0x70000000 + (n + 1) * 0x10000 - 0x10000 = 0x70000000 + n * 0x10000 := by
      omega
    rw [he]
    dsimp only
    rw [ih f (by omega)]
    have hiq : iterQueries allFailEnv (0x70000000 + (n + 1) * 0x10000) = 1 := rfl
    dsimp only
    rw [hiq, Nat.add_comm 1 n]

/-- C9 counterexample: in the environment where every probe fails — the
claim's own worst case — the scan performs exactly 4093 `NtQueryVirtualMemory`
calls, exceeding every "few hundred" bound. -/
theorem kexRtlGetNativeSystemDllBase_queries_exceed_hundreds :
    (nativeDllScan allFailEnv SCAN_FUEL SCAN_START).2 = 4093 ∧ ¬ (4093 ≤ 999) := by
  have h : nativeDllScan allFailEnv 4093 (0x70000000 + 4093 * 0x10000) = (some none, 4093) :=
    allFail_count 4093 4093 (Nat.le_refl _)
  constructor
  · have e : SCAN_START = 0x70000000 + 4093 * 0x10000 := by decide
    rw [show (SCAN_FUEL : Nat) = 4093 from rfl, e, h]
  · decide

/-- C9 (amended): the scan's OS-query count is bounded — at most two queries
per candidate over the 4093-candidate range, hence at most 8186, with
exactly 4093 when every probe fails at its first query — and the scan always
terminates within the fixed range. -/
theorem kexRtlGetNativeSystemDllBase_query_bound (env : LocEnv) (hA : AllocBaseLe env) :
    (nativeDllScan env SCAN_FUEL SCAN_START).2 ≤ 8186
    ∧ (nativeDllScan env SCAN_FUEL SCAN_START).1 ≠ none := by
  have h := nativeDllScan_total env hA SCAN_FUEL SCAN_START (by decide)
  exact ⟨h.2.trans (by decide), h.1⟩

/-- Witness for the amended C9: the bound holds in the all-fail
environment. -/
theorem kexRtlGetNativeSystemDllBase_query_bound_witness :
    (nativeDllScan allFailEnv SCAN_FUEL SCAN_START).2 ≤ 8186
    ∧ (nativeDllScan allFailEnv SCAN_FUEL SCAN_START).1 ≠ none :=
  kexRtlGetNativeSystemDllBase_query_bound allFailEnv
    (by intro a b t hb; simp [allFailEnv] at hb)
